import Mathlib

/-!
esp-homie: a shallow embedding of `homie.c` / `homie.h`.

Strings are lists of characters standing for the bytes found at a `char *`:
the C string such a list holds ends at its first NUL byte, or at the end of
the list when it has none.  Global and function-static variables of the C
file (`homie_event_group`, `topic`, `data_text`) are fields of `World`; the
calls the code makes to its collaborators (transport publish, the two user
callbacks, the event-group primitives) are recorded, in order, in
`World.trace`.  Log statements (`ESP_LOGx`) have no effect on any of this and
are left out.
-/

namespace Homie

/-! ## Constants of `homie.h` -/

def HOMIE_MAX_TOPIC_LEN : Nat := 64
def HOMIE_MAX_DEVICE_NAME_LEN : Nat := 32
def HOMIE_MAX_BASE_TOPIC_LEN : Nat := 32
def HOMIE_MAX_NODE_LIST_LEN : Nat := 32

def BIT0 : Nat := 1
def BIT1 : Nat := 2
def HOMIE_MQTT_CONNECTED_BIT : Nat := BIT0
def HOMIE_MQTT_UPDATE_REQUIRED_BIT : Nat := BIT1

def QOS_1 : Int := 1
def RETAINED : Int := 1

/-! ## C strings and the libc functions the code uses -/

/-- The NUL byte that ends a C string. -/
def NUL : Char := Char.ofNat 0

/-- The C string held at a pointer: the bytes before the first NUL. -/
def cstr (s : List Char) : List Char := s.takeWhile (fun c => c != NUL)

/-- Length of the C string held at a pointer. -/
def strlen (s : List Char) : Nat := (cstr s).length

/-- Compare at most `n` bytes of two strings; the end of a list reads as the
terminating NUL.  The result is the difference of the first two bytes that
differ, and 0 when none differ before `n` bytes or before a common NUL. -/
def strncmp : List Char → List Char → Nat → Int
  | _, _, 0 => 0
  | [], [], _ + 1 => 0
  | [], b :: _, _ + 1 => 0 - (b.toNat : Int)
  | a :: _, [], _ + 1 => (a.toNat : Int)
  | a :: as, b :: bs, n + 1 =>
    if a = b then (if a = NUL then 0 else strncmp as bs n)
    else (a.toNat : Int) - (b.toNat : Int)

/-- Content of `dst` after `strlcpy(dst, src, size)`: at most `size - 1`
bytes of the string at `src`. -/
def strlcpy (src : List Char) (size : Nat) : List Char := (cstr src).take (size - 1)

/-- Content of `dst` after `strlcat(dst, src, size)`: nothing is appended
when `dst` already holds `size` bytes or more without a terminator inside
`size`, otherwise as much of `src` as keeps the whole below `size` bytes. -/
def strlcat (dst src : List Char) (size : Nat) : List Char :=
  if size ≤ strlen dst then cstr dst
  else cstr dst ++ (cstr src).take (size - strlen dst - 1)

/-- Content of the buffer after `snprintf(buf, size, ...)` whose format
expands to `expansion`: at most `size - 1` bytes are kept. -/
def snprintf (size : Nat) (expansion : List Char) : List Char := expansion.take (size - 1)

/-- Conversion `%u`. -/
def fmt_u (n : Nat) : List Char := Nat.toDigits 10 n

/-- Conversion `%d`. -/
def fmt_d (n : Int) : List Char :=
  if n < 0 then '-' :: Nat.toDigits 10 n.natAbs else Nat.toDigits 10 n.toNat

/-- Conversion `%X`: upper-case hexadecimal, no padding. -/
def fmt_X (n : Nat) : List Char := (Nat.toDigits 16 n).map Char.toUpper

/-- Conversion of a value to the 32-bit `int` of the target. -/
def to_int (x : Int) : Int := (x + 2 ^ 31) % 2 ^ 32 - 2 ^ 31

/-! ## Data model -/

/-- The fields of `homie_config_t` the code reads (`mqtt_config` belongs to
the transport client).  A callback field is `true` when the pointer is not
null. -/
structure homie_config_t where
  device_name : List Char
  base_topic : List Char
  node_list : List Char
  stats_interval : Int
  loop : Bool
  disable_publish_attributes : Bool
  connected_handler : Bool
  msg_handler : Bool
deriving DecidableEq, Repr

inductive esp_mqtt_event_id_t where
  | MQTT_EVENT_ANY
  | MQTT_EVENT_ERROR
  | MQTT_EVENT_CONNECTED
  | MQTT_EVENT_DISCONNECTED
  | MQTT_EVENT_SUBSCRIBED
  | MQTT_EVENT_UNSUBSCRIBED
  | MQTT_EVENT_PUBLISHED
  | MQTT_EVENT_DATA
  | MQTT_EVENT_BEFORE_CONNECT
deriving DecidableEq, Repr

/-- The fields of the transport event the handler reads. -/
structure esp_mqtt_event_t where
  event_id : esp_mqtt_event_id_t
  topic : List Char
  topic_len : Nat
  data : List Char
  data_len : Nat
  total_data_len : Nat
  current_data_offset : Nat
deriving DecidableEq, Repr

/-- What the code does to the outside, in the order it does it. -/
inductive Effect where
  /-- entry into `homie_handle_command(topic, data)` -/
  | handle_command (topic data : List Char)
  /-- `config->msg_handler(subtopic, data)` -/
  | msg_handler (subtopic data : List Char)
  /-- `config->connected_handler()` -/
  | connected_handler
  /-- `esp_mqtt_client_publish(client, topic, payload, 0, qos, retain)` -/
  | publish (topic payload : List Char) (qos retain : Int)
  /-- `xEventGroupSetBits(homie_event_group, bits)` -/
  | set_bits (bits : Nat)
  /-- `xEventGroupClearBits(homie_event_group, bits)` -/
  | clear_bits (bits : Nat)
deriving DecidableEq, Repr

/-- The collaborators the code queries: the transport client, the network
stack, the firmware description, the heap and the clock. -/
structure Env where
  /-- value returned by `esp_mqtt_client_publish(client, topic, payload, 0, qos, retain)` -/
  esp_mqtt_client_publish : List Char → List Char → Int → Int → Int
  /-- `esp_wifi_sta_get_ap_info`: `none` when it does not return `ESP_OK`,
  otherwise the `int8_t` field `info.rssi` -/
  ap_info : Option Int
  /-- `ip.ip.addr` as left by `tcpip_adapter_get_ip_info` -/
  ip_addr : Nat
  /-- the six bytes written by `esp_efuse_mac_get_default` -/
  mac : Fin 6 → Nat
  /-- `esp_ota_get_app_description()->project_name` -/
  project_name : List Char
  /-- `esp_ota_get_app_description()->version` -/
  version : List Char
  /-- `esp_get_free_heap_size()` -/
  free_heap_size : Nat
  /-- `esp_timer_get_time()`, microseconds -/
  timer_time : Int

/-- The mutable state of `homie.c`. -/
structure World where
  /-- the bits of `homie_event_group` -/
  homie_event_group : Nat
  /-- `static char *topic` of `mqtt_event_handler`: `none` is `NULL`,
  `some s` a live buffer holding the string `s` -/
  topic : Option (List Char)
  /-- `static char *data_text` of `mqtt_event_handler` -/
  data_text : Option (List Char)
  /-- number of blocks obtained from `malloc` and not yet passed to `free` -/
  heap_blocks : Nat
  /-- the calls made so far -/
  trace : List Effect
deriving DecidableEq, Repr

def World.emit (w : World) (e : Effect) : World := { w with trace := w.trace ++ [e] }

/-! ## Event-group primitives -/

def xEventGroupSetBits (w : World) (bits : Nat) : World :=
  { w with homie_event_group := w.homie_event_group ||| bits,
           trace := w.trace ++ [Effect.set_bits bits] }

/-- Clears in the group the bits set in `bits` (`group & ~bits`). -/
def xEventGroupClearBits (w : World) (bits : Nat) : World :=
  { w with homie_event_group := w.homie_event_group ^^^ (w.homie_event_group &&& bits),
           trace := w.trace ++ [Effect.clear_bits bits] }

/-- Value returned by `xEventGroupWaitBits(homie_event_group, bits, pdFALSE,
pdTRUE, ticks)`: the bits of the group when the wait ends, by the awaited
bits being set or by timeout; with `pdFALSE` no bit is cleared on exit. -/
def xEventGroupWaitBits (w : World) (_uxBitsToWaitFor : Nat) : Nat := w.homie_event_group

/-! ## Topic builder and publish variants -/

def homie_mktopic (config : homie_config_t) (subtopic : List Char) : List Char :=
  snprintf HOMIE_MAX_TOPIC_LEN (cstr config.base_topic ++ '/' :: cstr subtopic)

def homie_publish (config : Option homie_config_t) (env : Env) (subtopic : List Char)
    (qos retain : Int) (payload : List Char) (w : World) : Int × World :=
  match config with
  | none => (-2, w)
  | some c =>
    let topic := homie_mktopic c subtopic
    (env.esp_mqtt_client_publish topic payload qos retain,
      w.emit (Effect.publish topic payload qos retain))

/-- The variadic `homie_publishf`; `formatted` is what `format` expands to
with the arguments of the call. -/
def homie_publishf (config : Option homie_config_t) (env : Env) (subtopic : List Char)
    (qos retain : Int) (formatted : List Char) (w : World) : Int × World :=
  let payload_string := snprintf 64 formatted
  homie_publish config env subtopic qos retain payload_string w

def homie_publish_int (config : Option homie_config_t) (env : Env) (subtopic : List Char)
    (qos retain : Int) (payload : Int) (w : World) : Int × World :=
  let payload_string := snprintf 16 (fmt_d payload)
  homie_publish config env subtopic qos retain payload_string w

def homie_remove_retained (config : Option homie_config_t) (env : Env) (topic : List Char)
    (w : World) : Int × World :=
  homie_publish config env topic QOS_1 RETAINED [] w

/-! ## Command dispatcher and transport callback -/

def homie_handle_command (config : homie_config_t) (topic data : List Char) (w : World) : World :=
  let w := w.emit (Effect.handle_command topic data)
  if data.headD NUL = NUL then w
  else
    let base_topic := homie_mktopic config []
    let base_len := strlen base_topic
    if strncmp base_topic topic base_len ≠ 0 then w
    else
      let subtopic := topic.drop base_len
      if config.msg_handler then w.emit (Effect.msg_handler subtopic data) else w

/-- Effect of `free(p)` on the number of live blocks. -/
def free (p : Option (List Char)) (blocks : Nat) : Nat :=
  match p with
  | none => blocks
  | some _ => blocks - 1

/-- The `MQTT_EVENT_DATA` case up to the label `free:`.  `malloc1` and
`malloc2` tell whether the first and the second `malloc` of the case, when
reached, return a block. -/
def mqtt_event_data (config : homie_config_t) (event : esp_mqtt_event_t)
    (malloc1 malloc2 : Bool) (w : World) : World :=
  let first : World × Bool :=
    if event.current_data_offset = 0 then
      if malloc1 then
        let w1 : World :=
          { w with topic := some (strlcpy event.topic (event.topic_len + 1)),
                   heap_blocks := w.heap_blocks + 1 }
        if malloc2 then
          ({ w1 with data_text := some [], heap_blocks := w1.heap_blocks + 1 }, false)
        else ({ w1 with data_text := none }, true)
      else ({ w with topic := none }, true)
    else (w, false)
  if first.2 then first.1
  else
    match first.1.topic, first.1.data_text with
    | some t, some d =>
      let d1 := if event.total_data_len > 0 then strlcat d event.data (event.data_len + 1) else d
      let w2 : World := { first.1 with data_text := some d1 }
      if event.current_data_offset + event.data_len ≥ event.total_data_len then
        homie_handle_command config t d1 w2
      else w2
    | _, _ => first.1

/-- The statements after the label `free:`. -/
def mqtt_event_free (w : World) : World :=
  { w with heap_blocks := free w.data_text (free w.topic w.heap_blocks),
           topic := none, data_text := none }

def mqtt_event_handler (config : homie_config_t) (event : esp_mqtt_event_t)
    (malloc1 malloc2 : Bool) (w : World) : World :=
  match event.event_id with
  | .MQTT_EVENT_CONNECTED =>
    xEventGroupSetBits w (HOMIE_MQTT_CONNECTED_BIT ||| HOMIE_MQTT_UPDATE_REQUIRED_BIT)
  | .MQTT_EVENT_DISCONNECTED => xEventGroupClearBits w HOMIE_MQTT_CONNECTED_BIT
  | .MQTT_EVENT_DATA => mqtt_event_free (mqtt_event_data config event malloc1 malloc2 w)
  | .MQTT_EVENT_BEFORE_CONNECT => w
  | .MQTT_EVENT_SUBSCRIBED => w
  | .MQTT_EVENT_UNSUBSCRIBED => w
  | .MQTT_EVENT_PUBLISHED => w
  | .MQTT_EVENT_ERROR => w
  | .MQTT_EVENT_ANY => w

/-- The transport delivering events one after the other, each with the
outcome of the allocations its handling may attempt. -/
def deliver (config : homie_config_t) (events : List (esp_mqtt_event_t × Bool × Bool))
    (w : World) : World :=
  events.foldl (fun acc e => mqtt_event_handler config e.1 e.2.1 e.2.2 acc) w

/-! ## Publishers -/

def clamp (n lower upper : Int) : Int :=
  if n ≤ lower then lower else (if n ≥ upper then upper else n)

def get_wifi_rssi (env : Env) : Int :=
  match env.ap_info with
  | none => 0
  | some rssi => rssi

def get_ip (env : Env) : List Char :=
  fmt_u (env.ip_addr &&& 0x000000ff) ++ '.' :: fmt_u ((env.ip_addr &&& 0x0000ff00) >>> 8)
    ++ '.' :: fmt_u ((env.ip_addr &&& 0x00ff0000) >>> 16)
    ++ '.' :: fmt_u ((env.ip_addr &&& 0xff000000) >>> 24)

def get_mac (env : Env) : List Char :=
  fmt_X (env.mac 0 % 256) ++ ':' :: fmt_X (env.mac 1 % 256) ++ ':' :: fmt_X (env.mac 2 % 256)
    ++ ':' :: fmt_X (env.mac 3 % 256) ++ ':' :: fmt_X (env.mac 4 % 256)
    ++ ':' :: fmt_X (env.mac 5 % 256)

def publish_attributes (config : homie_config_t) (env : Env) (w : World) : World :=
  let ip_address := get_ip env
  let mac_address := get_mac env
  let w := (homie_publish (some config) env "$homie".toList QOS_1 RETAINED "4.0.1".toList w).2
  let w := (homie_publish (some config) env "$name".toList QOS_1 RETAINED config.device_name w).2
  let w := (homie_publish (some config) env "$localip".toList QOS_1 RETAINED ip_address w).2
  let w := (homie_publish (some config) env "$mac".toList QOS_1 RETAINED mac_address w).2
  let w := (homie_publish (some config) env "$nodes".toList QOS_1 RETAINED config.node_list w).2
  let w := (homie_publish (some config) env "$extensions".toList QOS_1 RETAINED
    "org.homie.legacy-stats:0.1.1:[4.x],org.homie.legacy-firmware:0.1.1:[4.x]".toList w).2
  let w := (homie_publish (some config) env "$implementation".toList QOS_1 RETAINED
    "ESP8266_RTOS_SDK".toList w).2
  let w := (homie_publish (some config) env "$stats".toList QOS_1 RETAINED
    "interval,uptime,signal,freeheap".toList w).2
  let w := (homie_publish_int (some config) env "$stats/interval".toList QOS_1 RETAINED
    config.stats_interval w).2
  let w := (homie_publish (some config) env "$fw/name".toList QOS_1 RETAINED env.project_name w).2
  (homie_publish (some config) env "$fw/version".toList QOS_1 RETAINED env.version w).2

def publish_stats (config : homie_config_t) (env : Env) (w : World) : World :=
  let rssi := get_wifi_rssi env
  let w := (homie_publish_int (some config) env "$stats/signal".toList QOS_1 RETAINED
    (clamp ((rssi + 100) * 2) 0 100) w).2
  let w := (homie_publish_int (some config) env "$stats/freeheap".toList QOS_1 RETAINED
    (to_int env.free_heap_size) w).2
  (homie_publish_int (some config) env "$stats/uptime".toList QOS_1 RETAINED
    (to_int (Int.tdiv env.timer_time 1000000)) w).2

def homie_connected (config : homie_config_t) (env : Env) (w : World) : World :=
  let w := (homie_publish (some config) env "$state".toList QOS_1 RETAINED "init".toList w).2
  let w := if !config.disable_publish_attributes then publish_attributes config env w else w
  let w := publish_stats config env w
  let w := (homie_publish (some config) env "$state".toList QOS_1 RETAINED "ready".toList w).2
  let w := if config.connected_handler then w.emit Effect.connected_handler else w
  xEventGroupClearBits w HOMIE_MQTT_UPDATE_REQUIRED_BIT

/-! ## Lifecycle worker -/

/-- Where the worker `homie_task` stands between two steps: in the first
`while` (waiting for the connection), at the head of the second `while`, or
past it (`vTaskDelete`). -/
inductive TaskState where
  | AwaitingConnection
  | Steady
  | Terminal
deriving DecidableEq, Repr

/-- One step of `homie_task`: one pass of the first `while` (followed, when
it ends, by the first `homie_connected`), or one evaluation of
`config->loop` followed, when it holds, by one pass of the loop body. -/
def homie_task_step (config : homie_config_t) (env : Env) (s : TaskState × World) :
    TaskState × World :=
  match s.1 with
  | .AwaitingConnection =>
    let bits := HOMIE_MQTT_CONNECTED_BIT
    if xEventGroupWaitBits s.2 bits &&& bits ≠ bits then (.AwaitingConnection, s.2)
    else (.Steady, homie_connected config env s.2)
  | .Steady =>
    if config.loop then
      let bits := xEventGroupWaitBits s.2 HOMIE_MQTT_UPDATE_REQUIRED_BIT
      if bits &&& HOMIE_MQTT_UPDATE_REQUIRED_BIT ≠ 0 then
        (.Steady, homie_connected config env s.2)
      else (.Steady, publish_stats config env s.2)
    else (.Terminal, s.2)
  | .Terminal => (.Terminal, s.2)

/-- The worker taken through as many steps as the list has entries; each
step reads the configuration (whose `loop` flag the application may change)
and the collaborators as they are when it is taken. -/
def homie_task_run (steps : List (homie_config_t × Env)) (s : TaskState × World) :
    TaskState × World :=
  steps.foldl (fun acc c => homie_task_step c.1 c.2 acc) s

/-! ## Test data -/

def cfg0 : homie_config_t :=
  { device_name := "lamp".toList, base_topic := "homie/lamp".toList, node_list := "light".toList,
    stats_interval := 60, loop := true, disable_publish_attributes := false,
    connected_handler := true, msg_handler := true }

def env0 : Env :=
  { esp_mqtt_client_publish := fun _ _ _ _ => 7, ap_info := some (-60), ip_addr := 0x0100a8c0,
    mac := fun i => 16 * (i.val + 1), project_name := "app".toList, version := "1.0".toList,
    free_heap_size := 40000, timer_time := 5000000 }

def w0 : World :=
  { homie_event_group := 0, topic := none, data_text := none, heap_blocks := 0, trace := [] }

/-- A first fragment carrying two of four payload bytes. -/
def frag1 : esp_mqtt_event_t :=
  { event_id := .MQTT_EVENT_DATA, topic := "homie/lamp/light/on/set".toList, topic_len := 23,
    data := "tr".toList, data_len := 2, total_data_len := 4, current_data_offset := 0 }

/-- The second and last fragment of the same message. -/
def frag2 : esp_mqtt_event_t :=
  { event_id := .MQTT_EVENT_DATA, topic := [], topic_len := 0,
    data := "ue".toList, data_len := 2, total_data_len := 4, current_data_offset := 2 }

/-- A subpath of 53 characters: with `cfg0` the full topic has 64. -/
def sub53 : List Char := List.replicate 53 'x'

/-- A first and only fragment for which the handler is asked to allocate. -/
def frag_whole : esp_mqtt_event_t :=
  { event_id := .MQTT_EVENT_DATA, topic := "homie/lamp/light/on/set".toList, topic_len := 23,
    data := "true".toList, data_len := 4, total_data_len := 4, current_data_offset := 0 }

def ev_connected : esp_mqtt_event_t :=
  { event_id := .MQTT_EVENT_CONNECTED, topic := [], topic_len := 0,
    data := [], data_len := 0, total_data_len := 0, current_data_offset := 0 }

def ev_disconnected : esp_mqtt_event_t :=
  { event_id := .MQTT_EVENT_DISCONNECTED, topic := [], topic_len := 0,
    data := [], data_len := 0, total_data_len := 0, current_data_offset := 0 }

/-- The world of a connected worker after its first announcement: connected
bit set, update-required bit clear. -/
def w_steady : World :=
  { homie_event_group := 1, topic := none, data_text := none, heap_blocks := 0, trace := [] }

/-- A data event with an empty payload on a topic of the device namespace. -/
def frag_empty : esp_mqtt_event_t :=
  { event_id := .MQTT_EVENT_DATA, topic := "homie/lamp/light/on/set".toList, topic_len := 23,
    data := [], data_len := 0, total_data_len := 0, current_data_offset := 0 }

/-- The collaborators of `env0` with the hardware address 00:1A:2B:3C:4D:0E. -/
def env_mac : Env :=
  { env0 with mac := fun i => [0x00, 0x1A, 0x2B, 0x3C, 0x4D, 0x0E].getD i.val 0 }

/-! ## Lemmas on strings -/

theorem cstr_nul_free (s : List Char) : ∀ c ∈ cstr s, c ≠ NUL := by
  intro c hc
  have h := List.mem_takeWhile_imp hc
  simpa using h

theorem cstr_of_nul_free {s : List Char} (h : ∀ c ∈ s, c ≠ NUL) : cstr s = s := by
  unfold cstr
  rw [List.takeWhile_eq_self_iff]
  intro c hc
  simpa using h c hc

theorem cstr_idem (s : List Char) : cstr (cstr s) = cstr s :=
  cstr_of_nul_free (cstr_nul_free s)

theorem cstr_append_of_nul_free {a : List Char} (h : ∀ c ∈ a, c ≠ NUL) (s : List Char) :
    cstr (a ++ s) = a ++ cstr s := by
  induction a with
  | nil => rfl
  | cons x xs ih =>
    have hx : x ≠ NUL := h x (List.mem_cons_self _ _)
    have hxs : ∀ c ∈ xs, c ≠ NUL := fun c hc => h c (List.mem_cons_of_mem _ hc)
    have ih1 := ih hxs
    unfold cstr at ih1 ⊢
    simp [List.takeWhile_cons, hx, ih1]

theorem toNat_eq_zero_nul {c : Char} (h : c.toNat = 0) : c = NUL := by
  have h1 := Char.ofNat_toNat c
  rw [h] at h1
  exact h1.symm

theorem toNat_inj_char {a b : Char} (h : a.toNat = b.toNat) : a = b := by
  have h1 := Char.ofNat_toNat a
  have h2 := Char.ofNat_toNat b
  rw [h] at h1
  exact h1.symm.trans h2

theorem strncmp_self_append (a s : List Char) : strncmp a (a ++ s) a.length = 0 := by
  induction a with
  | nil => simp [strncmp]
  | cons x xs ih => simp [strncmp, ih]

theorem strncmp_zero_begins {a : List Char} (ha : ∀ c ∈ a, c ≠ NUL) :
    ∀ b : List Char, strncmp a b a.length = 0 → a <+: cstr b := by
  induction a with
  | nil => intro b _; exact List.nil_prefix
  | cons x xs ih =>
    intro b hb
    have hx : x ≠ NUL := ha x (List.mem_cons_self _ _)
    have hxs : ∀ c ∈ xs, c ≠ NUL := fun c hc => ha c (List.mem_cons_of_mem _ hc)
    cases b with
    | nil =>
      simp only [strncmp, List.length_cons] at hb
      exact absurd (toNat_eq_zero_nul (by exact_mod_cast hb)) hx
    | cons y ys =>
      simp only [strncmp, List.length_cons] at hb
      by_cases hxy : x = y
      · subst hxy
        simp only [if_true, hx, if_false] at hb
        have h1 := ih hxs ys hb
        have h2 : cstr (x :: ys) = x :: cstr ys := by
          unfold cstr
          simp [List.takeWhile_cons, hx]
        rw [h2]
        exact (List.cons_prefix_cons).2 ⟨rfl, h1⟩
      · simp only [hxy, if_false] at hb
        exact absurd (toNat_inj_char (by omega)) hxy

theorem strlen_of_nul_free {s : List Char} (h : ∀ c ∈ s, c ≠ NUL) : strlen s = s.length := by
  unfold strlen
  rw [cstr_of_nul_free h]

/-! ## Lemmas on the topic builder -/

theorem homie_mktopic_nul_free (config : homie_config_t) (p : List Char) :
    ∀ c ∈ homie_mktopic config p, c ≠ NUL := by
  intro c hc
  unfold homie_mktopic snprintf at hc
  have h1 := List.mem_of_mem_take hc
  rcases List.mem_append.1 h1 with h2 | h2
  · exact cstr_nul_free _ c h2
  · rcases List.mem_cons.1 h2 with h3 | h3
    · rw [h3]; decide
    · exact cstr_nul_free _ c h3

theorem homie_mktopic_fits (config : homie_config_t) (p : List Char)
    (h : strlen config.base_topic + 1 + strlen p < HOMIE_MAX_TOPIC_LEN) :
    homie_mktopic config p = cstr config.base_topic ++ '/' :: cstr p := by
  unfold homie_mktopic snprintf
  apply List.take_of_length_le
  unfold strlen at h
  simp only [List.length_append, List.length_cons]
  omega

theorem homie_mktopic_nil (config : homie_config_t)
    (h : strlen config.base_topic < HOMIE_MAX_BASE_TOPIC_LEN) :
    homie_mktopic config [] = cstr config.base_topic ++ ['/'] := by
  have h1 : strlen config.base_topic + 1 + strlen [] < HOMIE_MAX_TOPIC_LEN := by
    have h2 : strlen [] = 0 := rfl
    rw [h2]
    unfold HOMIE_MAX_BASE_TOPIC_LEN at h
    unfold HOMIE_MAX_TOPIC_LEN
    omega
  have h3 := homie_mktopic_fits config [] h1
  have h4 : cstr [] = [] := rfl
  rw [h3, h4]

/-! ## C1: reassembly of a fragmented message -/

/-- C1 (the code departs from the claim): `frag1`, `frag2` are the two
fragments of one four-byte message, with contiguous offsets and lengths that
sum to the declared total, delivered from the idle state with every
allocation succeeding; the handler never enters `homie_handle_command`, the
world after the two events is the world before them. -/
theorem C1_two_fragments_not_dispatched :
    frag1.current_data_offset = 0
    ∧ frag2.current_data_offset = frag1.current_data_offset + frag1.data_len
    ∧ frag1.data_len + frag2.data_len = frag1.total_data_len
    ∧ frag2.total_data_len = frag1.total_data_len
    ∧ w0.topic = none ∧ w0.data_text = none
    ∧ (deliver cfg0 [(frag1, true, true), (frag2, true, true)] w0).trace = []
    ∧ deliver cfg0 [(frag1, true, true), (frag2, true, true)] w0 = w0 := by
  decide

/-! ## C2, C3: command dispatcher -/

/-- C2: for every topic and payload, when the payload's first byte is NUL or
the topic string does not begin with the configured base topic, the only
call recorded for `homie_handle_command` is its own entry: `msg_handler` is
not invoked and nothing else changes.  The base topic is a string held in
`char base_topic[HOMIE_MAX_BASE_TOPIC_LEN]`. -/
theorem C2_rejected_command_not_dispatched (config : homie_config_t) (topic data : List Char)
    (w : World) (hlen : strlen config.base_topic < HOMIE_MAX_BASE_TOPIC_LEN)
    (h : data.headD NUL = NUL ∨ ¬ (cstr config.base_topic <+: cstr topic)) :
    homie_handle_command config topic data w
      = { w with trace := w.trace ++ [Effect.handle_command topic data] } := by
  unfold homie_handle_command World.emit
  by_cases hd : data.headD NUL = NUL
  · simp only [hd, if_true]
  · have hn : ¬ (cstr config.base_topic <+: cstr topic) := h.resolve_left hd
    by_cases hs : strncmp (homie_mktopic config []) topic (strlen (homie_mktopic config [])) = 0
    · exfalso
      apply hn
      rw [strlen_of_nul_free (homie_mktopic_nul_free config [])] at hs
      have h1 := strncmp_zero_begins (homie_mktopic_nul_free config []) topic hs
      rw [homie_mktopic_nil config hlen] at h1
      exact List.IsPrefix.trans (List.prefix_append _ _) h1
    · simp only [hd, hs, if_false, ne_eq, not_false_eq_true, if_true]

theorem C2_rejected_command_not_dispatched_witness :
    strlen cfg0.base_topic < HOMIE_MAX_BASE_TOPIC_LEN
    ∧ ¬ (cstr cfg0.base_topic <+: cstr "other/lamp/light/on/set".toList)
    ∧ homie_handle_command cfg0 "other/lamp/light/on/set".toList "true".toList w0
      = { w0 with trace := w0.trace
            ++ [Effect.handle_command "other/lamp/light/on/set".toList "true".toList] } :=
  ⟨by decide, by decide,
    C2_rejected_command_not_dispatched cfg0 "other/lamp/light/on/set".toList "true".toList w0
      (by decide) (Or.inr (by decide))⟩

/-- C3: for every base topic within its length bound, every subtopic `s` and
every payload `d` whose first byte is not NUL, with a message handler
configured, `homie_handle_command` on topic `base_topic + "/" + s` invokes
the handler exactly once, with `(s, d)`, and changes nothing else. -/
theorem C3_command_dispatched_with_subtopic (config : homie_config_t) (s d : List Char)
    (w : World) (hlen : strlen config.base_topic < HOMIE_MAX_BASE_TOPIC_LEN)
    (hd : d.headD NUL ≠ NUL) (hh : config.msg_handler = true) :
    homie_handle_command config (cstr config.base_topic ++ '/' :: s) d w
      = { w with trace := w.trace
            ++ [Effect.handle_command (cstr config.base_topic ++ '/' :: s) d,
                Effect.msg_handler s d] } := by
  have ht : cstr config.base_topic ++ '/' :: s = homie_mktopic config [] ++ s := by
    rw [homie_mktopic_nil config hlen]; simp
  have hs : strncmp (homie_mktopic config []) (homie_mktopic config [] ++ s)
      (strlen (homie_mktopic config [])) = 0 := by
    rw [strlen_of_nul_free (homie_mktopic_nul_free config [])]
    exact strncmp_self_append _ _
  have hdrop : (homie_mktopic config [] ++ s).drop (strlen (homie_mktopic config [])) = s := by
    rw [strlen_of_nul_free (homie_mktopic_nul_free config [])]
    exact List.drop_left _ _
  rw [ht]
  unfold homie_handle_command World.emit
  simp only [hd, hs, hdrop, hh, if_false, ne_eq, not_true_eq_false, if_true,
    List.append_assoc, List.singleton_append]

theorem C3_command_dispatched_with_subtopic_witness :
    homie_handle_command cfg0 (cstr cfg0.base_topic ++ '/' :: "light/on/set".toList)
        "true".toList w0
      = { w0 with trace := w0.trace
            ++ [Effect.handle_command (cstr cfg0.base_topic ++ '/' :: "light/on/set".toList)
                  "true".toList,
                Effect.msg_handler "light/on/set".toList "true".toList] } :=
  C3_command_dispatched_with_subtopic cfg0 "light/on/set".toList "true".toList w0
    (by decide) (by decide) rfl

/-! ## C4: topic builder -/

/-- C4 (as written, refuted): the base topic `homie/lamp`, the separator and
a subpath of 53 characters make 64 characters; `homie_mktopic` writes 63 of
them, not the first 64. -/
theorem C4_counterexample_64_characters :
    (cstr cfg0.base_topic ++ '/' :: cstr sub53).length = 64
    ∧ (homie_mktopic cfg0 sub53).length = 63
    ∧ ¬ (homie_mktopic cfg0 sub53
          = (cstr cfg0.base_topic ++ '/' :: cstr sub53).take HOMIE_MAX_TOPIC_LEN) := by
  decide

/-- C4 (amended): for every subpath `p` and configuration, `homie_mktopic`
writes `base_topic + "/" + p` cut to `HOMIE_MAX_TOPIC_LEN - 1 = 63`
characters (the 64-byte buffer also holds the terminator), so all of it when
it has at most 63 characters; for the empty subpath and a base topic within
its bound the result is the base topic followed by `/`; and the string
written depends on nothing but the base topic and the subpath, so two calls
with the same ones write identical strings. -/
theorem C4_mktopic_truncates_to_63 (config : homie_config_t) (p : List Char) :
    homie_mktopic config p
        = (cstr config.base_topic ++ '/' :: cstr p).take (HOMIE_MAX_TOPIC_LEN - 1)
    ∧ (homie_mktopic config p).length ≤ 63
    ∧ ((cstr config.base_topic ++ '/' :: cstr p).length ≤ 63 →
        homie_mktopic config p = cstr config.base_topic ++ '/' :: cstr p)
    ∧ (strlen config.base_topic < HOMIE_MAX_BASE_TOPIC_LEN →
        homie_mktopic config [] = cstr config.base_topic ++ ['/'])
    ∧ (∀ (config2 : homie_config_t) (p2 : List Char),
        cstr config2.base_topic = cstr config.base_topic → cstr p2 = cstr p →
        homie_mktopic config2 p2 = homie_mktopic config p) := by
  refine ⟨rfl, ?_, ?_, homie_mktopic_nil config, ?_⟩
  · unfold homie_mktopic snprintf HOMIE_MAX_TOPIC_LEN
    rw [List.length_take]
    exact Nat.min_le_left _ _
  · intro h
    unfold homie_mktopic snprintf HOMIE_MAX_TOPIC_LEN
    exact List.take_of_length_le h
  · intro config2 p2 h1 h2
    unfold homie_mktopic
    rw [h1, h2]

theorem C4_mktopic_truncates_to_63_witness :
    homie_mktopic cfg0 "$state".toList = "homie/lamp/$state".toList
    ∧ homie_mktopic cfg0 [] = "homie/lamp/".toList
    ∧ homie_mktopic cfg0 sub53 = "homie/lamp/".toList ++ List.replicate 52 'x' :=
  ⟨((C4_mktopic_truncates_to_63 cfg0 "$state".toList).2.2.1 (by decide)).trans (by decide),
    ((C4_mktopic_truncates_to_63 cfg0 []).2.2.2.1 (by decide)).trans (by decide),
    (C4_mktopic_truncates_to_63 cfg0 sub53).1.trans (by decide)⟩

/-! ## C5: signal quality -/

theorem clamp_eq_min_max (n : Int) : clamp n 0 100 = min 100 (max 0 n) := by
  unfold clamp
  by_cases h1 : n ≤ 0
  · rw [if_pos h1, max_eq_left h1]
    exact (min_eq_right (by decide)).symm
  · rw [if_neg h1]
    have h2 : 0 ≤ n := by omega
    rw [max_eq_right h2]
    by_cases h3 : n ≥ 100
    · rw [if_pos h3]
      exact (min_eq_left h3).symm
    · rw [if_neg h3]
      exact (min_eq_right (by omega)).symm

theorem clamp_bounds (n : Int) : 0 ≤ clamp n 0 100 ∧ clamp n 0 100 ≤ 100 := by
  unfold clamp
  by_cases h1 : n ≤ 0
  · rw [if_pos h1]; decide
  · rw [if_neg h1]
    by_cases h3 : n ≥ 100
    · rw [if_pos h3]; decide
    · rw [if_neg h3]; omega

theorem toDigits_length_le (n e : Nat) (h : n < 10 ^ e) (he : 0 < e) :
    (Nat.toDigits 10 n).length ≤ e := by
  unfold Nat.toDigits
  exact Nat.toDigitsCore_length 10 (by decide) (n + 1) n e h he

theorem fmt_d_length_int (n : Int) (h1 : -2 ^ 31 ≤ n) (h2 : n < 2 ^ 31) :
    (fmt_d n).length ≤ 11 := by
  unfold fmt_d
  by_cases hn : n < 0
  · rw [if_pos hn, List.length_cons]
    have h3 : n.natAbs < 10 ^ 10 := by omega
    have h4 := toDigits_length_le n.natAbs 10 h3 (by decide)
    omega
  · rw [if_neg hn]
    have h3 : n.toNat < 10 ^ 10 := by omega
    have h4 := toDigits_length_le n.toNat 10 h3 (by decide)
    omega

theorem snprintf_16_fmt_d (n : Int) (h1 : -2 ^ 31 ≤ n) (h2 : n < 2 ^ 31) :
    snprintf 16 (fmt_d n) = fmt_d n := by
  unfold snprintf
  apply List.take_of_length_le
  have h := fmt_d_length_int n h1 h2
  omega

theorem publish_stats_eq (config : homie_config_t) (env : Env) (w : World) :
    publish_stats config env w
      = { w with trace := w.trace ++
          [Effect.publish (homie_mktopic config "$stats/signal".toList)
             (snprintf 16 (fmt_d (clamp ((get_wifi_rssi env + 100) * 2) 0 100))) QOS_1 RETAINED,
           Effect.publish (homie_mktopic config "$stats/freeheap".toList)
             (snprintf 16 (fmt_d (to_int env.free_heap_size))) QOS_1 RETAINED,
           Effect.publish (homie_mktopic config "$stats/uptime".toList)
             (snprintf 16 (fmt_d (to_int (Int.tdiv env.timer_time 1000000)))) QOS_1 RETAINED] } := by
  unfold publish_stats homie_publish_int homie_publish World.emit
  simp only [List.append_assoc, List.cons_append, List.nil_append]

/-- C5: for every signal-strength reading `rssi`, `publish_stats` publishes
under `$stats/signal` the decimal text of
`clamp((rssi + 100) * 2, 0, 100) = min(100, max(0, (rssi + 100) * 2))`, a
value of `[0, 100]`; the mapping sends -100 to 0, -50 to 100, 0 to 100 and
-150 to 0. -/
theorem C5_signal_quality_clamped (config : homie_config_t) (env : Env) (rssi : Int)
    (w : World) :
    (publish_stats config { env with ap_info := some rssi } w).trace
      = w.trace ++
        [Effect.publish (homie_mktopic config "$stats/signal".toList)
           (fmt_d (min 100 (max 0 ((rssi + 100) * 2)))) QOS_1 RETAINED,
         Effect.publish (homie_mktopic config "$stats/freeheap".toList)
           (snprintf 16 (fmt_d (to_int env.free_heap_size))) QOS_1 RETAINED,
         Effect.publish (homie_mktopic config "$stats/uptime".toList)
           (snprintf 16 (fmt_d (to_int (Int.tdiv env.timer_time 1000000)))) QOS_1 RETAINED]
    ∧ clamp ((rssi + 100) * 2) 0 100 = min 100 (max 0 ((rssi + 100) * 2))
    ∧ 0 ≤ clamp ((rssi + 100) * 2) 0 100 ∧ clamp ((rssi + 100) * 2) 0 100 ≤ 100
    ∧ clamp ((-100 + 100) * 2) 0 100 = 0 ∧ clamp ((-50 + 100) * 2) 0 100 = 100
    ∧ clamp ((0 + 100) * 2) 0 100 = 100 ∧ clamp ((-150 + 100) * 2) 0 100 = 0 := by
  have hb := clamp_bounds ((rssi + 100) * 2)
  refine ⟨?_, clamp_eq_min_max _, hb.1, hb.2, by decide, by decide, by decide, by decide⟩
  rw [publish_stats_eq]
  have hr : get_wifi_rssi { env with ap_info := some rssi } = rssi := rfl
  rw [hr, snprintf_16_fmt_d _ (by omega) (by omega), clamp_eq_min_max]

/-! ## C6: allocation failure during reassembly -/

/-- C6: for every data event whose handling allocates (offset 0) and in
which the topic-buffer or the payload-buffer allocation fails,
`homie_handle_command` is not entered (no call at all is made), both
buffers are null on return, and, when the handler was idle on entry, no
block obtained from `malloc` is kept. -/
theorem C6_allocation_failure_drops_message (config : homie_config_t)
    (event : esp_mqtt_event_t) (malloc1 malloc2 : Bool) (w : World)
    (hid : event.event_id = esp_mqtt_event_id_t.MQTT_EVENT_DATA)
    (hoff : event.current_data_offset = 0)
    (hfail : malloc1 = false ∨ malloc2 = false) :
    (mqtt_event_handler config event malloc1 malloc2 w).trace = w.trace
    ∧ (mqtt_event_handler config event malloc1 malloc2 w).topic = none
    ∧ (mqtt_event_handler config event malloc1 malloc2 w).data_text = none
    ∧ (mqtt_event_handler config event malloc1 malloc2 w).homie_event_group
        = w.homie_event_group
    ∧ (w.topic = none → w.data_text = none →
        (mqtt_event_handler config event malloc1 malloc2 w).heap_blocks = w.heap_blocks) := by
  unfold mqtt_event_handler
  rw [hid]
  show _ ∧ _
  unfold mqtt_event_free mqtt_event_data
  rw [if_pos hoff]
  cases malloc1 with
  | false =>
    refine ⟨rfl, rfl, rfl, rfl, ?_⟩
    intro _ h2
    simp [free, h2]
  | true =>
    have h2 : malloc2 = false := by
      rcases hfail with h | h
      · exact absurd h (by decide)
      · exact h
    subst h2
    refine ⟨rfl, rfl, rfl, rfl, ?_⟩
    intro _ _
    simp [free]

theorem C6_allocation_failure_drops_message_witness :
    frag_whole.event_id = esp_mqtt_event_id_t.MQTT_EVENT_DATA
    ∧ frag_whole.current_data_offset = 0
    ∧ (mqtt_event_handler cfg0 frag_whole true false w0).trace = w0.trace
    ∧ (mqtt_event_handler cfg0 frag_whole false true w0).trace = w0.trace
    ∧ (mqtt_event_handler cfg0 frag_whole true false w0).heap_blocks = w0.heap_blocks :=
  ⟨rfl, rfl,
    (C6_allocation_failure_drops_message cfg0 frag_whole true false w0 rfl rfl (Or.inr rfl)).1,
    (C6_allocation_failure_drops_message cfg0 frag_whole false true w0 rfl rfl (Or.inl rfl)).1,
    (C6_allocation_failure_drops_message cfg0 frag_whole true false w0 rfl rfl
      (Or.inr rfl)).2.2.2.2 rfl rfl⟩

/-! ## C7: publish variants -/

/-- C7: with no configuration installed `homie_publish`, `homie_publishf`
and `homie_publish_int` return a negative value and make no call; with a
configuration each returns what the transport returns for the one publish
it makes, of `(homie_mktopic(subtopic), payload, qos, retain)`, the payload
being the given string, the formatted string cut to the 63 characters of
its buffer, and the decimal text of the `int`. -/
theorem C7_publish_variants (env : Env) (subtopic payload formatted : List Char)
    (qos retain n : Int) (w : World) (hn : -2 ^ 31 ≤ n ∧ n < 2 ^ 31) :
    ((homie_publish none env subtopic qos retain payload w).1 < 0
      ∧ (homie_publish none env subtopic qos retain payload w).2 = w)
    ∧ ((homie_publishf none env subtopic qos retain formatted w).1 < 0
      ∧ (homie_publishf none env subtopic qos retain formatted w).2 = w)
    ∧ ((homie_publish_int none env subtopic qos retain n w).1 < 0
      ∧ (homie_publish_int none env subtopic qos retain n w).2 = w)
    ∧ (∀ config : homie_config_t,
        homie_publish (some config) env subtopic qos retain payload w
          = (env.esp_mqtt_client_publish (homie_mktopic config subtopic) payload qos retain,
             { w with trace := w.trace
                 ++ [Effect.publish (homie_mktopic config subtopic) payload qos retain] }))
    ∧ (∀ config : homie_config_t,
        homie_publishf (some config) env subtopic qos retain formatted w
          = (env.esp_mqtt_client_publish (homie_mktopic config subtopic) (formatted.take 63)
               qos retain,
             { w with trace := w.trace
                 ++ [Effect.publish (homie_mktopic config subtopic) (formatted.take 63)
                       qos retain] }))
    ∧ (∀ config : homie_config_t,
        homie_publish_int (some config) env subtopic qos retain n w
          = (env.esp_mqtt_client_publish (homie_mktopic config subtopic) (fmt_d n) qos retain,
             { w with trace := w.trace
                 ++ [Effect.publish (homie_mktopic config subtopic) (fmt_d n) qos retain] })) := by
  have hneg : (-2 : Int) < 0 := by decide
  refine ⟨⟨hneg, rfl⟩, ⟨hneg, rfl⟩, ⟨hneg, rfl⟩, fun _ => rfl, fun _ => rfl, ?_⟩
  intro config
  unfold homie_publish_int
  rw [snprintf_16_fmt_d n hn.1 hn.2]
  rfl

theorem C7_publish_variants_witness :
    (homie_publish_int none env0 "$stats/interval".toList 1 1 60 w0).1 < 0
    ∧ homie_publish_int (some cfg0) env0 "$stats/interval".toList 1 1 60 w0
        = (7, { w0 with trace :=
                 [Effect.publish "homie/lamp/$stats/interval".toList "60".toList 1 1] }) :=
  ⟨(C7_publish_variants env0 "$stats/interval".toList [] [] 1 1 60 w0
      ⟨by decide, by decide⟩).2.2.1.1,
    ((C7_publish_variants env0 "$stats/interval".toList [] [] 1 1 60 w0
      ⟨by decide, by decide⟩).2.2.2.2.2 cfg0).trans (by decide)⟩

/-! ## C8, C9: announcement cycle -/

theorem publish_attributes_eq (config : homie_config_t) (env : Env) (w : World) :
    publish_attributes config env w
      = { w with trace := w.trace ++
          [Effect.publish (homie_mktopic config "$homie".toList) "4.0.1".toList QOS_1 RETAINED,
           Effect.publish (homie_mktopic config "$name".toList) config.device_name
             QOS_1 RETAINED,
           Effect.publish (homie_mktopic config "$localip".toList) (get_ip env) QOS_1 RETAINED,
           Effect.publish (homie_mktopic config "$mac".toList) (get_mac env) QOS_1 RETAINED,
           Effect.publish (homie_mktopic config "$nodes".toList) config.node_list
             QOS_1 RETAINED,
           Effect.publish (homie_mktopic config "$extensions".toList)
             "org.homie.legacy-stats:0.1.1:[4.x],org.homie.legacy-firmware:0.1.1:[4.x]".toList
             QOS_1 RETAINED,
           Effect.publish (homie_mktopic config "$implementation".toList)
             "ESP8266_RTOS_SDK".toList QOS_1 RETAINED,
           Effect.publish (homie_mktopic config "$stats".toList)
             "interval,uptime,signal,freeheap".toList QOS_1 RETAINED,
           Effect.publish (homie_mktopic config "$stats/interval".toList)
             (snprintf 16 (fmt_d config.stats_interval)) QOS_1 RETAINED,
           Effect.publish (homie_mktopic config "$fw/name".toList) env.project_name
             QOS_1 RETAINED,
           Effect.publish (homie_mktopic config "$fw/version".toList) env.version
             QOS_1 RETAINED] } := by
  unfold publish_attributes homie_publish_int homie_publish World.emit
  simp only [List.append_assoc, List.cons_append, List.nil_append]

theorem clear_update_required_testBit (g i : Nat) :
    (g ^^^ (g &&& HOMIE_MQTT_UPDATE_REQUIRED_BIT)).testBit i
      = (g.testBit i && decide (i ≠ 1)) := by
  have h2 : HOMIE_MQTT_UPDATE_REQUIRED_BIT = 2 ^ 1 := rfl
  rw [h2, Nat.testBit_xor, Nat.testBit_and, Nat.testBit_two_pow]
  by_cases hi : i = 1
  · subst hi
    cases Nat.testBit g 1 <;> rfl
  · have h3 : ¬ (1 = i) := fun h => hi h.symm
    cases hg : Nat.testBit g i <;> simp [hi, h3]

theorem homie_connected_event_group (config : homie_config_t) (env : Env) (w : World) :
    (homie_connected config env w).homie_event_group
      = w.homie_event_group ^^^ (w.homie_event_group &&& HOMIE_MQTT_UPDATE_REQUIRED_BIT) := by
  unfold homie_connected
  simp only [publish_attributes_eq, publish_stats_eq]
  unfold xEventGroupClearBits homie_publish World.emit
  cases config.connected_handler <;> cases config.disable_publish_attributes <;> rfl

theorem homie_connected_buffers (config : homie_config_t) (env : Env) (w : World) :
    (homie_connected config env w).topic = w.topic
    ∧ (homie_connected config env w).data_text = w.data_text
    ∧ (homie_connected config env w).heap_blocks = w.heap_blocks := by
  unfold homie_connected
  simp only [publish_attributes_eq, publish_stats_eq]
  unfold xEventGroupClearBits homie_publish World.emit
  cases config.connected_handler <;> cases config.disable_publish_attributes <;>
    exact ⟨rfl, rfl, rfl⟩

/-- C8: with attribute publication enabled, one run of `homie_connected`
makes exactly these calls in this order: sixteen publications, to `$state`
("init"), `$homie`, `$name`, `$localip`, `$mac`, `$nodes`, `$extensions`,
`$implementation`, `$stats`, `$stats/interval`, `$fw/name`, `$fw/version`,
`$stats/signal`, `$stats/freeheap`, `$stats/uptime`, `$state` ("ready"), each
with quality of service 1 and the retained flag; then the connected
callback when one is configured; then, last, the clearing of the
update-required bit, which leaves every other bit as it was. -/
theorem C8_announcement_order (config : homie_config_t) (env : Env) (w : World)
    (h : config.disable_publish_attributes = false) :
    (homie_connected config env w).trace
      = w.trace
        ++ ([("$state", "init".toList),
             ("$homie", "4.0.1".toList),
             ("$name", config.device_name),
             ("$localip", get_ip env),
             ("$mac", get_mac env),
             ("$nodes", config.node_list),
             ("$extensions",
               "org.homie.legacy-stats:0.1.1:[4.x],org.homie.legacy-firmware:0.1.1:[4.x]".toList),
             ("$implementation", "ESP8266_RTOS_SDK".toList),
             ("$stats", "interval,uptime,signal,freeheap".toList),
             ("$stats/interval", snprintf 16 (fmt_d config.stats_interval)),
             ("$fw/name", env.project_name),
             ("$fw/version", env.version),
             ("$stats/signal",
               snprintf 16 (fmt_d (clamp ((get_wifi_rssi env + 100) * 2) 0 100))),
             ("$stats/freeheap", snprintf 16 (fmt_d (to_int env.free_heap_size))),
             ("$stats/uptime",
               snprintf 16 (fmt_d (to_int (Int.tdiv env.timer_time 1000000)))),
             ("$state", "ready".toList)].map
              (fun p : String × List Char =>
                Effect.publish (homie_mktopic config p.1.toList) p.2 1 1))
        ++ (if config.connected_handler = true then [Effect.connected_handler] else [])
        ++ [Effect.clear_bits HOMIE_MQTT_UPDATE_REQUIRED_BIT]
    ∧ (homie_connected config env w).homie_event_group.testBit 1 = false
    ∧ (∀ i, i ≠ 1 → (homie_connected config env w).homie_event_group.testBit i
        = w.homie_event_group.testBit i)
    ∧ (homie_connected config env w).topic = w.topic
    ∧ (homie_connected config env w).data_text = w.data_text := by
  refine ⟨?_, ?_, ?_, (homie_connected_buffers config env w).1,
    (homie_connected_buffers config env w).2.1⟩
  · unfold homie_connected
    simp only [h, publish_attributes_eq, publish_stats_eq, Bool.not_false, if_true]
    unfold xEventGroupClearBits homie_publish World.emit
    cases config.connected_handler <;>
      simp [QOS_1, RETAINED]
  · rw [homie_connected_event_group, clear_update_required_testBit]
    simp
  · intro i hi
    rw [homie_connected_event_group, clear_update_required_testBit]
    simp [hi]

theorem C8_announcement_order_witness :
    ((homie_connected cfg0 env0 w0).trace.map
        (fun e => match e with
          | Effect.publish t _ _ _ => String.mk t
          | Effect.connected_handler => "connected_handler"
          | Effect.clear_bits _ => "clear_bits"
          | _ => "other"))
      = ["homie/lamp/$state", "homie/lamp/$homie", "homie/lamp/$name", "homie/lamp/$localip",
         "homie/lamp/$mac", "homie/lamp/$nodes", "homie/lamp/$extensions",
         "homie/lamp/$implementation", "homie/lamp/$stats", "homie/lamp/$stats/interval",
         "homie/lamp/$fw/name", "homie/lamp/$fw/version", "homie/lamp/$stats/signal",
         "homie/lamp/$stats/freeheap", "homie/lamp/$stats/uptime", "homie/lamp/$state",
         "connected_handler", "clear_bits"] := by
  rw [(C8_announcement_order cfg0 env0 w0 rfl).1]
  decide

/-- C9: with `disable_publish_attributes` set, one run of `homie_connected`
publishes exactly five values: `$state` "init", `$stats/signal`,
`$stats/freeheap`, `$stats/uptime`, `$state` "ready", in this order, and no
metadata attribute; the only other calls are the connected callback, when
configured, and the clearing of the update-required bit. -/
theorem C9_attributes_suppressed (config : homie_config_t) (env : Env) (w : World)
    (h : config.disable_publish_attributes = true) :
    (homie_connected config env w).trace
      = w.trace
        ++ ([("$state", "init".toList),
             ("$stats/signal",
               snprintf 16 (fmt_d (clamp ((get_wifi_rssi env + 100) * 2) 0 100))),
             ("$stats/freeheap", snprintf 16 (fmt_d (to_int env.free_heap_size))),
             ("$stats/uptime",
               snprintf 16 (fmt_d (to_int (Int.tdiv env.timer_time 1000000)))),
             ("$state", "ready".toList)].map
              (fun p : String × List Char =>
                Effect.publish (homie_mktopic config p.1.toList) p.2 1 1))
        ++ (if config.connected_handler = true then [Effect.connected_handler] else [])
        ++ [Effect.clear_bits HOMIE_MQTT_UPDATE_REQUIRED_BIT] := by
  unfold homie_connected
  simp only [h, publish_stats_eq, Bool.not_true, if_false]
  unfold xEventGroupClearBits homie_publish World.emit
  cases config.connected_handler <;>
    simp [QOS_1, RETAINED]

theorem C9_attributes_suppressed_witness :
    ((homie_connected { cfg0 with disable_publish_attributes := true } env0 w0).trace.map
        (fun e => match e with
          | Effect.publish t p _ _ => (String.mk t, String.mk p)
          | Effect.connected_handler => ("connected_handler", "")
          | Effect.clear_bits _ => ("clear_bits", "")
          | _ => ("other", "")))
      = [("homie/lamp/$state", "init"), ("homie/lamp/$stats/signal", "80"),
         ("homie/lamp/$stats/freeheap", "40000"), ("homie/lamp/$stats/uptime", "5"),
         ("homie/lamp/$state", "ready"), ("connected_handler", ""), ("clear_bits", "")] := by
  rw [C9_attributes_suppressed { cfg0 with disable_publish_attributes := true } env0 w0 rfl]
  decide

/-! ## C10: steady state -/

/-- C10: in the loop of `homie_task`, an iteration (the keep-running flag
holding) whose wait returns with the update-required bit clear publishes
exactly `$stats/signal`, `$stats/freeheap`, `$stats/uptime`, in this order,
each with quality of service 1 and retained; it makes no other call (no
`$state`, no metadata attribute), leaves the event group and everything else
unchanged, and is back at the head of the loop. -/
theorem C10_steady_timeout_publishes_stats (config : homie_config_t) (env : Env) (w : World)
    (hloop : config.loop = true)
    (hclear : w.homie_event_group &&& HOMIE_MQTT_UPDATE_REQUIRED_BIT = 0) :
    homie_task_step config env (TaskState.Steady, w)
      = (TaskState.Steady,
          { w with trace := w.trace
              ++ [Effect.publish (homie_mktopic config "$stats/signal".toList)
                    (snprintf 16 (fmt_d (clamp ((get_wifi_rssi env + 100) * 2) 0 100))) 1 1,
                  Effect.publish (homie_mktopic config "$stats/freeheap".toList)
                    (snprintf 16 (fmt_d (to_int env.free_heap_size))) 1 1,
                  Effect.publish (homie_mktopic config "$stats/uptime".toList)
                    (snprintf 16 (fmt_d (to_int (Int.tdiv env.timer_time 1000000)))) 1 1] }) := by
  unfold homie_task_step
  simp only [hloop, if_true, xEventGroupWaitBits, hclear, ne_eq, not_true_eq_false, if_false]
  rw [publish_stats_eq]
  rfl

theorem C10_steady_timeout_publishes_stats_witness :
    cfg0.loop = true
    ∧ w0.homie_event_group &&& HOMIE_MQTT_UPDATE_REQUIRED_BIT = 0
    ∧ homie_task_step cfg0 env0 (TaskState.Steady, w0)
      = (TaskState.Steady,
          { w0 with trace :=
              [Effect.publish "homie/lamp/$stats/signal".toList "80".toList 1 1,
               Effect.publish "homie/lamp/$stats/freeheap".toList "40000".toList 1 1,
               Effect.publish "homie/lamp/$stats/uptime".toList "5".toList 1 1] }) :=
  ⟨rfl, rfl,
    (C10_steady_timeout_publishes_stats cfg0 env0 w0 rfl (by decide)).trans (by decide)⟩

/-! ## Lemmas on the event group -/

theorem and_update_required_eq_zero (g : Nat) :
    g &&& HOMIE_MQTT_UPDATE_REQUIRED_BIT = 0 ↔ g.testBit 1 = false := by
  have h2 : HOMIE_MQTT_UPDATE_REQUIRED_BIT = 2 ^ 1 := rfl
  constructor
  · intro h
    have h3 : (g &&& HOMIE_MQTT_UPDATE_REQUIRED_BIT).testBit 1 = false := by
      rw [h]; exact Nat.zero_testBit 1
    rw [h2, Nat.testBit_and, Nat.testBit_two_pow_self, Bool.and_true] at h3
    exact h3
  · intro h
    apply Nat.eq_of_testBit_eq
    intro i
    rw [h2, Nat.testBit_and, Nat.zero_testBit, Nat.testBit_two_pow]
    by_cases hi : 1 = i
    · subst hi
      rw [h]; rfl
    · simp [hi]

theorem set_both_bits_testBit (g i : Nat) :
    (g ||| (HOMIE_MQTT_CONNECTED_BIT ||| HOMIE_MQTT_UPDATE_REQUIRED_BIT)).testBit i
      = (g.testBit i || decide (i < 2)) := by
  have h3 : HOMIE_MQTT_CONNECTED_BIT ||| HOMIE_MQTT_UPDATE_REQUIRED_BIT = 2 ^ 2 - 1 := by decide
  rw [h3, Nat.testBit_or, Nat.testBit_two_pow_sub_one]

theorem clear_connected_testBit (g i : Nat) :
    (g ^^^ (g &&& HOMIE_MQTT_CONNECTED_BIT)).testBit i = (g.testBit i && decide (i ≠ 0)) := by
  have h2 : HOMIE_MQTT_CONNECTED_BIT = 2 ^ 0 := rfl
  rw [h2, Nat.testBit_xor, Nat.testBit_and, Nat.testBit_two_pow]
  by_cases hi : i = 0
  · subst hi
    cases Nat.testBit g 0 <;> rfl
  · have h3 : ¬ (0 = i) := fun h => hi h.symm
    cases hg : Nat.testBit g i <;> simp [hi, h3]

/-! ## Lemmas on the transport callback -/

theorem handle_command_frame (config : homie_config_t) (t d : List Char) (w : World) :
    homie_handle_command config t d w
      = { w with trace := (homie_handle_command config t d w).trace } := by
  unfold homie_handle_command World.emit
  dsimp only
  split_ifs <;> rfl

theorem handle_command_group (config : homie_config_t) (t d : List Char) (w : World) :
    (homie_handle_command config t d w).homie_event_group = w.homie_event_group := by
  rw [handle_command_frame]

theorem handle_command_topic (config : homie_config_t) (t d : List Char) (w : World) :
    (homie_handle_command config t d w).topic = w.topic := by
  rw [handle_command_frame]

theorem handle_command_data_text (config : homie_config_t) (t d : List Char) (w : World) :
    (homie_handle_command config t d w).data_text = w.data_text := by
  rw [handle_command_frame]

theorem handle_command_heap_blocks (config : homie_config_t) (t d : List Char) (w : World) :
    (homie_handle_command config t d w).heap_blocks = w.heap_blocks := by
  rw [handle_command_frame]

theorem mqtt_event_data_frame (config : homie_config_t) (event : esp_mqtt_event_t)
    (malloc1 malloc2 : Bool) (w : World) :
    (mqtt_event_data config event malloc1 malloc2 w).homie_event_group = w.homie_event_group := by
  unfold mqtt_event_data
  by_cases hoff : event.current_data_offset = 0
  · cases malloc1 <;> cases malloc2 <;> simp only [hoff, if_true, if_false, Bool.false_eq_true]
    all_goals split_ifs <;> first | rfl | rw [handle_command_frame]
  · simp only [hoff, if_false, Bool.false_eq_true]
    cases ht : w.topic <;> cases hd : w.data_text <;> simp only []
    all_goals split_ifs <;> first | rfl | rw [handle_command_frame]

theorem mqtt_event_handler_group_of_data (config : homie_config_t) (event : esp_mqtt_event_t)
    (malloc1 malloc2 : Bool) (w : World)
    (hid : event.event_id = esp_mqtt_event_id_t.MQTT_EVENT_DATA) :
    (mqtt_event_handler config event malloc1 malloc2 w).homie_event_group
      = w.homie_event_group := by
  unfold mqtt_event_handler
  rw [hid]
  exact mqtt_event_data_frame config event malloc1 malloc2 w

theorem steady_step_of_update_required (config : homie_config_t) (env : Env) (w : World)
    (hloop : config.loop = true) (hset : w.homie_event_group.testBit 1 = true) :
    homie_task_step config env (TaskState.Steady, w)
      = (TaskState.Steady, homie_connected config env w) := by
  have h : ¬ (w.homie_event_group &&& HOMIE_MQTT_UPDATE_REQUIRED_BIT = 0) := by
    intro h0
    rw [(and_update_required_eq_zero _).1 h0] at hset
    exact Bool.noConfusion hset
  unfold homie_task_step
  simp only [hloop, if_true, xEventGroupWaitBits, ne_eq, h, not_false_eq_true]

theorem steady_step_of_no_update (config : homie_config_t) (env : Env) (w : World)
    (hloop : config.loop = true) (hclear : w.homie_event_group.testBit 1 = false) :
    homie_task_step config env (TaskState.Steady, w)
      = (TaskState.Steady, publish_stats config env w) := by
  have h : w.homie_event_group &&& HOMIE_MQTT_UPDATE_REQUIRED_BIT = 0 :=
    (and_update_required_eq_zero _).2 hclear
  unfold homie_task_step
  simp only [hloop, if_true, xEventGroupWaitBits, ne_eq, h, not_true_eq_false, if_false]

theorem homie_connected_clears_update_required (config : homie_config_t) (env : Env)
    (w : World) : (homie_connected config env w).homie_event_group.testBit 1 = false := by
  rw [homie_connected_event_group, clear_update_required_testBit]
  simp

/-! ## C11: reconnect while steady -/

/-- C11: from any world of a worker standing at the head of its loop (so in
particular one with the update-required bit clear), a disconnect event
followed by a connect event leaves the update-required bit set; the next
iteration of the loop is exactly one run of `homie_connected`, after which
the bit is clear; the iteration after that, no event having been handled in
between, is exactly one run of `publish_stats` (the stats triple) and no
announcement. -/
theorem C11_reconnect_one_reannouncement (config : homie_config_t) (env1 env2 : Env)
    (e1 e2 : esp_mqtt_event_t) (m1 m2 m3 m4 : Bool) (w : World)
    (hloop : config.loop = true)
    (h1 : e1.event_id = esp_mqtt_event_id_t.MQTT_EVENT_DISCONNECTED)
    (h2 : e2.event_id = esp_mqtt_event_id_t.MQTT_EVENT_CONNECTED) :
    (deliver config [(e1, m1, m2), (e2, m3, m4)] w).homie_event_group.testBit 1 = true
    ∧ (deliver config [(e1, m1, m2), (e2, m3, m4)] w).trace
        = w.trace ++ [Effect.clear_bits HOMIE_MQTT_CONNECTED_BIT,
            Effect.set_bits (HOMIE_MQTT_CONNECTED_BIT ||| HOMIE_MQTT_UPDATE_REQUIRED_BIT)]
    ∧ homie_task_step config env1
          (TaskState.Steady, deliver config [(e1, m1, m2), (e2, m3, m4)] w)
        = (TaskState.Steady,
            homie_connected config env1 (deliver config [(e1, m1, m2), (e2, m3, m4)] w))
    ∧ (homie_connected config env1
          (deliver config [(e1, m1, m2), (e2, m3, m4)] w)).homie_event_group.testBit 1 = false
    ∧ homie_task_step config env2 (TaskState.Steady,
          homie_connected config env1 (deliver config [(e1, m1, m2), (e2, m3, m4)] w))
        = (TaskState.Steady, publish_stats config env2
            (homie_connected config env1 (deliver config [(e1, m1, m2), (e2, m3, m4)] w)))
    ∧ homie_task_run [(config, env1), (config, env2)]
          (TaskState.Steady, deliver config [(e1, m1, m2), (e2, m3, m4)] w)
        = (TaskState.Steady, publish_stats config env2
            (homie_connected config env1 (deliver config [(e1, m1, m2), (e2, m3, m4)] w))) := by
  have hset : (deliver config [(e1, m1, m2), (e2, m3, m4)] w).homie_event_group.testBit 1
      = true := by
    unfold deliver
    simp only [List.foldl_cons, List.foldl_nil]
    unfold mqtt_event_handler
    rw [h1, h2]
    show (_ ||| (HOMIE_MQTT_CONNECTED_BIT ||| HOMIE_MQTT_UPDATE_REQUIRED_BIT)).testBit 1 = true
    rw [set_both_bits_testBit]
    simp
  have htrace : (deliver config [(e1, m1, m2), (e2, m3, m4)] w).trace
      = w.trace ++ [Effect.clear_bits HOMIE_MQTT_CONNECTED_BIT,
          Effect.set_bits (HOMIE_MQTT_CONNECTED_BIT ||| HOMIE_MQTT_UPDATE_REQUIRED_BIT)] := by
    unfold deliver
    simp only [List.foldl_cons, List.foldl_nil]
    unfold mqtt_event_handler
    rw [h1, h2]
    show (w.trace ++ [_]) ++ [_] = _
    rw [List.append_assoc]
    rfl
  have hstep1 := steady_step_of_update_required config env1 _ hloop hset
  have hclr := homie_connected_clears_update_required config env1
    (deliver config [(e1, m1, m2), (e2, m3, m4)] w)
  have hstep2 := steady_step_of_no_update config env2 _ hloop hclr
  refine ⟨hset, htrace, hstep1, hclr, hstep2, ?_⟩
  unfold homie_task_run
  simp only [List.foldl_cons, List.foldl_nil]
  rw [hstep1, hstep2]

theorem C11_reconnect_one_reannouncement_witness :
    w_steady.homie_event_group.testBit 1 = false
    ∧ (deliver cfg0 [(ev_disconnected, true, true), (ev_connected, true, true)]
        w_steady).homie_event_group = 3
    ∧ ((homie_task_run [(cfg0, env0), (cfg0, env0)] (TaskState.Steady,
          deliver cfg0 [(ev_disconnected, true, true), (ev_connected, true, true)]
            w_steady)).2.trace.filter
        (fun e => e == Effect.publish "homie/lamp/$state".toList "init".toList 1 1)).length = 1
    ∧ (homie_task_run [(cfg0, env0), (cfg0, env0)] (TaskState.Steady,
          deliver cfg0 [(ev_disconnected, true, true), (ev_connected, true, true)]
            w_steady)).2.homie_event_group = 1 := by
  have h := (C11_reconnect_one_reannouncement cfg0 env0 env0 ev_disconnected ev_connected
    true true true true w_steady rfl rfl rfl).2.2.2.2.2
  refine ⟨by decide, by decide, ?_, ?_⟩
  · rw [h]; decide
  · rw [h]; decide

/-! ## C12: effect of the events on the flags -/

/-- C12: for every value of the event group, handling `MQTT_EVENT_CONNECTED`
sets the connected and the update-required bit and no other;
`MQTT_EVENT_DISCONNECTED` clears the connected bit and leaves every other
bit, update-required included, as it was; every other event kind leaves the
group unchanged.  No event clears update-required, `publish_stats` and
`publish_attributes` leave the group unchanged, a step of the worker either
is a run of `homie_connected` or leaves the group unchanged, and
`homie_connected` clears update-required as its last call. -/
theorem C12_flag_effects (config : homie_config_t) (env : Env) (event : esp_mqtt_event_t)
    (malloc1 malloc2 : Bool) (st : TaskState) (w : World) :
    (event.event_id = esp_mqtt_event_id_t.MQTT_EVENT_CONNECTED →
      (mqtt_event_handler config event malloc1 malloc2 w).homie_event_group.testBit 0 = true
      ∧ (mqtt_event_handler config event malloc1 malloc2 w).homie_event_group.testBit 1 = true
      ∧ ∀ i, 2 ≤ i →
          (mqtt_event_handler config event malloc1 malloc2 w).homie_event_group.testBit i
            = w.homie_event_group.testBit i)
    ∧ (event.event_id = esp_mqtt_event_id_t.MQTT_EVENT_DISCONNECTED →
      (mqtt_event_handler config event malloc1 malloc2 w).homie_event_group.testBit 0 = false
      ∧ ∀ i, i ≠ 0 →
          (mqtt_event_handler config event malloc1 malloc2 w).homie_event_group.testBit i
            = w.homie_event_group.testBit i)
    ∧ (event.event_id ≠ esp_mqtt_event_id_t.MQTT_EVENT_CONNECTED →
        event.event_id ≠ esp_mqtt_event_id_t.MQTT_EVENT_DISCONNECTED →
        (mqtt_event_handler config event malloc1 malloc2 w).homie_event_group
          = w.homie_event_group)
    ∧ (w.homie_event_group.testBit 1 = true →
        (mqtt_event_handler config event malloc1 malloc2 w).homie_event_group.testBit 1 = true)
    ∧ (publish_stats config env w).homie_event_group = w.homie_event_group
    ∧ (publish_attributes config env w).homie_event_group = w.homie_event_group
    ∧ ((homie_task_step config env (st, w)).2 = homie_connected config env w
        ∨ (homie_task_step config env (st, w)).2.homie_event_group = w.homie_event_group)
    ∧ (homie_connected config env w).homie_event_group.testBit 1 = false
    ∧ (∃ before, (homie_connected config env w).trace
        = before ++ [Effect.clear_bits HOMIE_MQTT_UPDATE_REQUIRED_BIT]) := by
  refine ⟨?_, ?_, ?_, ?_, ?_, ?_, ?_, homie_connected_clears_update_required config env w, ?_⟩
  · intro hid
    unfold mqtt_event_handler
    rw [hid]
    unfold xEventGroupSetBits
    refine ⟨?_, ?_, ?_⟩
    · show (_ ||| (HOMIE_MQTT_CONNECTED_BIT ||| HOMIE_MQTT_UPDATE_REQUIRED_BIT)).testBit 0 = true
      rw [set_both_bits_testBit]; simp
    · show (_ ||| (HOMIE_MQTT_CONNECTED_BIT ||| HOMIE_MQTT_UPDATE_REQUIRED_BIT)).testBit 1 = true
      rw [set_both_bits_testBit]; simp
    · intro i hi
      show (_ ||| (HOMIE_MQTT_CONNECTED_BIT ||| HOMIE_MQTT_UPDATE_REQUIRED_BIT)).testBit i = _
      rw [set_both_bits_testBit]
      have h : ¬ i < 2 := by omega
      simp [h]
  · intro hid
    unfold mqtt_event_handler
    rw [hid]
    unfold xEventGroupClearBits
    refine ⟨?_, ?_⟩
    · show (_ ^^^ (_ &&& HOMIE_MQTT_CONNECTED_BIT)).testBit 0 = false
      rw [clear_connected_testBit]; simp
    · intro i hi
      show (_ ^^^ (_ &&& HOMIE_MQTT_CONNECTED_BIT)).testBit i = _
      rw [clear_connected_testBit]; simp [hi]
  · intro hc hd
    cases hid : event.event_id with
    | MQTT_EVENT_CONNECTED => exact absurd hid hc
    | MQTT_EVENT_DISCONNECTED => exact absurd hid hd
    | MQTT_EVENT_DATA => exact mqtt_event_handler_group_of_data config event malloc1 malloc2 w hid
    | _ => unfold mqtt_event_handler; rw [hid]
  · intro hset
    cases hid : event.event_id with
    | MQTT_EVENT_CONNECTED =>
      unfold mqtt_event_handler
      rw [hid]
      show (_ ||| (HOMIE_MQTT_CONNECTED_BIT ||| HOMIE_MQTT_UPDATE_REQUIRED_BIT)).testBit 1 = true
      rw [set_both_bits_testBit]; simp
    | MQTT_EVENT_DISCONNECTED =>
      unfold mqtt_event_handler
      rw [hid]
      show (_ ^^^ (_ &&& HOMIE_MQTT_CONNECTED_BIT)).testBit 1 = true
      rw [clear_connected_testBit, hset]; rfl
    | MQTT_EVENT_DATA =>
      rw [mqtt_event_handler_group_of_data config event malloc1 malloc2 w hid]
      exact hset
    | _ => unfold mqtt_event_handler; rw [hid]; exact hset
  · rw [publish_stats_eq]
  · rw [publish_attributes_eq]
  · unfold homie_task_step
    cases st with
    | AwaitingConnection =>
      dsimp only
      split_ifs
      · exact Or.inr rfl
      · exact Or.inl rfl
    | Steady =>
      dsimp only
      split_ifs
      · exact Or.inl rfl
      · right; rw [publish_stats_eq]
      · exact Or.inr rfl
    | Terminal => exact Or.inr rfl
  · unfold homie_connected xEventGroupClearBits
    exact ⟨_, rfl⟩

theorem C12_flag_effects_witness :
    (mqtt_event_handler cfg0 ev_connected true true w0).homie_event_group = 3
    ∧ (mqtt_event_handler cfg0 ev_disconnected true true
        (mqtt_event_handler cfg0 ev_connected true true w0)).homie_event_group = 2
    ∧ (mqtt_event_handler cfg0 frag_whole true true
        (mqtt_event_handler cfg0 ev_connected true true w0)).homie_event_group = 3
    ∧ (homie_connected cfg0 env0
        (mqtt_event_handler cfg0 ev_connected true true w0)).homie_event_group = 1 := by
  have h := C12_flag_effects cfg0 env0 frag_whole true true TaskState.Steady
    (mqtt_event_handler cfg0 ev_connected true true w0)
  refine ⟨by decide, by decide, ?_, by decide⟩
  rw [h.2.2.1 (by decide) (by decide)]
  decide

/-! ## Lemmas on reassembly -/

theorem mqtt_event_data_from_idle (config : homie_config_t) (event : esp_mqtt_event_t)
    (malloc1 malloc2 : Bool) (w : World) (ht : w.topic = none) (hd : w.data_text = none) :
    mqtt_event_free (mqtt_event_data config event malloc1 malloc2 w)
      = { w with trace := (mqtt_event_data config event malloc1 malloc2 w).trace } := by
  cases w with
  | mk g t d h tr =>
    simp only at ht hd
    subst ht hd
    unfold mqtt_event_free mqtt_event_data
    by_cases hoff : event.current_data_offset = 0
    · cases malloc1 <;> cases malloc2 <;>
        simp only [hoff, if_true, if_false, Bool.false_eq_true, free]
      · simp
      · split_ifs <;>
          simp [free, handle_command_group, handle_command_topic, handle_command_data_text,
            handle_command_heap_blocks]
    · simp only [hoff, if_false, Bool.false_eq_true, free]

theorem mqtt_event_handler_keeps_idle (config : homie_config_t) (event : esp_mqtt_event_t)
    (malloc1 malloc2 : Bool) (w : World) (ht : w.topic = none) (hd : w.data_text = none) :
    (mqtt_event_handler config event malloc1 malloc2 w).topic = none
    ∧ (mqtt_event_handler config event malloc1 malloc2 w).data_text = none
    ∧ (mqtt_event_handler config event malloc1 malloc2 w).heap_blocks = w.heap_blocks := by
  unfold mqtt_event_handler
  cases event.event_id with
  | MQTT_EVENT_DATA =>
    show (mqtt_event_free _).topic = none ∧ (mqtt_event_free _).data_text = none
      ∧ (mqtt_event_free _).heap_blocks = w.heap_blocks
    rw [mqtt_event_data_from_idle config event malloc1 malloc2 w ht hd]
    exact ⟨ht, hd, rfl⟩
  | _ => exact ⟨ht, hd, rfl⟩

theorem deliver_keeps_idle (config : homie_config_t)
    (history : List (esp_mqtt_event_t × Bool × Bool)) :
    ∀ w : World, w.topic = none → w.data_text = none →
      (deliver config history w).topic = none
      ∧ (deliver config history w).data_text = none
      ∧ (deliver config history w).heap_blocks = w.heap_blocks := by
  induction history with
  | nil => intro w ht hd; exact ⟨ht, hd, rfl⟩
  | cons e es ih =>
    intro w ht hd
    have h1 := mqtt_event_handler_keeps_idle config e.1 e.2.1 e.2.2 w ht hd
    have h2 := ih (mqtt_event_handler config e.1 e.2.1 e.2.2 w) h1.1 h1.2.1
    unfold deliver at h2 ⊢
    rw [List.foldl_cons]
    exact ⟨h2.1, h2.2.1, h2.2.2.trans h1.2.2⟩

theorem strlcpy_exact {t : List Char} (h : ∀ c ∈ t, c ≠ NUL) (rest : List Char) :
    strlcpy (t ++ rest) (t.length + 1) = t := by
  unfold strlcpy
  rw [cstr_append_of_nul_free h, Nat.add_sub_cancel]
  exact List.take_left _ _

theorem strlcat_nil_exact {d : List Char} (h : ∀ c ∈ d, c ≠ NUL) (rest : List Char) :
    strlcat [] (d ++ rest) (d.length + 1) = d := by
  have h0 : strlen [] = 0 := rfl
  have h1 : cstr [] = [] := rfl
  unfold strlcat
  rw [h0, h1, if_neg (by omega), cstr_append_of_nul_free h, List.nil_append]
  have h2 : d.length + 1 - 0 - 1 = d.length := by omega
  rw [h2]
  exact List.take_left _ _

theorem handle_command_in_namespace (config : homie_config_t) (s d : List Char) (w : World)
    (hlen : strlen config.base_topic < HOMIE_MAX_BASE_TOPIC_LEN)
    (hd : d.headD NUL ≠ NUL) (hh : config.msg_handler = true) :
    homie_handle_command config (cstr config.base_topic ++ '/' :: s) d w
      = { w with trace := w.trace
            ++ [Effect.handle_command (cstr config.base_topic ++ '/' :: s) d,
                Effect.msg_handler s d] } := by
  have ht : cstr config.base_topic ++ '/' :: s = homie_mktopic config [] ++ s := by
    rw [homie_mktopic_nil config hlen]; simp
  have hs : strncmp (homie_mktopic config []) (homie_mktopic config [] ++ s)
      (strlen (homie_mktopic config [])) = 0 := by
    rw [strlen_of_nul_free (homie_mktopic_nul_free config [])]
    exact strncmp_self_append _ _
  have hdrop : (homie_mktopic config [] ++ s).drop (strlen (homie_mktopic config [])) = s := by
    rw [strlen_of_nul_free (homie_mktopic_nul_free config [])]
    exact List.drop_left _ _
  rw [ht]
  unfold homie_handle_command World.emit
  simp only [hd, hs, hdrop, hh, if_false, ne_eq, not_true_eq_false, if_true,
    List.append_assoc, List.singleton_append]

/-! ## C13: empty payload -/

/-- C13: after any history of events handled since boot (both static
buffers null), a data event whose `total_data_len` is 0, on any topic and
with any allocation outcome, adds to the trace at most the entry into
`homie_handle_command` with the empty payload, which that function rejects:
no `msg_handler` call is made. -/
theorem C13_empty_payload_not_dispatched (config : homie_config_t)
    (history : List (esp_mqtt_event_t × Bool × Bool)) (event : esp_mqtt_event_t)
    (malloc1 malloc2 : Bool) (w : World)
    (ht : w.topic = none) (hd : w.data_text = none)
    (hid : event.event_id = esp_mqtt_event_id_t.MQTT_EVENT_DATA)
    (hlen : event.total_data_len = 0) :
    (mqtt_event_handler config event malloc1 malloc2 (deliver config history w)).trace
      = (deliver config history w).trace
        ++ (if event.current_data_offset = 0 ∧ malloc1 = true ∧ malloc2 = true then
              [Effect.handle_command (strlcpy event.topic (event.topic_len + 1)) []]
            else []) := by
  have hidle := deliver_keeps_idle config history w ht hd
  generalize deliver config history w = v at hidle ⊢
  cases v with
  | mk g t d h tr =>
    simp only at hidle
    obtain ⟨h1, h2, _⟩ := hidle
    subst h1 h2
    unfold mqtt_event_handler
    rw [hid]
    show (mqtt_event_data config event malloc1 malloc2 _).trace = _
    unfold mqtt_event_data
    by_cases hoff : event.current_data_offset = 0
    · cases malloc1 <;> cases malloc2 <;>
        simp [hoff, hlen, homie_handle_command, World.emit, NUL]
    · simp [hoff]

theorem C13_empty_payload_not_dispatched_witness :
    frag_empty.total_data_len = 0
    ∧ (mqtt_event_handler cfg0 frag_empty true true
        (deliver cfg0 [(frag_whole, true, true)] w0)).trace
      = [Effect.handle_command "homie/lamp/light/on/set".toList "true".toList,
         Effect.msg_handler "light/on/set".toList "true".toList,
         Effect.handle_command "homie/lamp/light/on/set".toList []] :=
  ⟨rfl, (C13_empty_payload_not_dispatched cfg0 [(frag_whole, true, true)] frag_empty true true
      w0 rfl rfl rfl rfl).trans (by decide)⟩

/-! ## C14: first fragment of a longer message -/

/-- C14 (the code departs from the claim): `frag1` is a first fragment
(offset 0) with 2 of 4 payload bytes, handled from the idle state with both
allocations succeeding.  At the label `free:` the buffers hold the copied
topic and the bytes received so far; on return of `mqtt_event_handler` both
are null, so nothing is left for the next fragment to be appended to. -/
theorem C14_first_fragment_buffers_dropped :
    frag1.current_data_offset = 0
    ∧ frag1.data_len < frag1.total_data_len
    ∧ (mqtt_event_data cfg0 frag1 true true w0).topic = some "homie/lamp/light/on/set".toList
    ∧ (mqtt_event_data cfg0 frag1 true true w0).data_text = some "tr".toList
    ∧ (mqtt_event_handler cfg0 frag1 true true w0).topic = none
    ∧ (mqtt_event_handler cfg0 frag1 true true w0).data_text = none := by
  decide

/-! ## C15: buffers after a data event -/

/-- C15: every handling of a data event, whatever its offset, lengths,
contents and allocation outcomes, and whether or not a dispatch happens,
returns with `topic` and `data_text` null; entered with both null it returns
with the number of live blocks it found; hence after any history of events
since boot both buffers are null and no block is held. -/
theorem C15_buffers_released_after_data_event (config : homie_config_t)
    (event : esp_mqtt_event_t) (malloc1 malloc2 : Bool) (w : World)
    (hid : event.event_id = esp_mqtt_event_id_t.MQTT_EVENT_DATA) :
    (mqtt_event_handler config event malloc1 malloc2 w).topic = none
    ∧ (mqtt_event_handler config event malloc1 malloc2 w).data_text = none
    ∧ (w.topic = none → w.data_text = none →
        (mqtt_event_handler config event malloc1 malloc2 w).heap_blocks = w.heap_blocks)
    ∧ (∀ history : List (esp_mqtt_event_t × Bool × Bool),
        w.topic = none → w.data_text = none →
        (deliver config history w).topic = none
        ∧ (deliver config history w).data_text = none
        ∧ (deliver config history w).heap_blocks = w.heap_blocks) := by
  refine ⟨?_, ?_, ?_, fun history => deliver_keeps_idle config history w⟩
  · unfold mqtt_event_handler
    rw [hid]
    rfl
  · unfold mqtt_event_handler
    rw [hid]
    rfl
  · intro ht hd
    exact (mqtt_event_handler_keeps_idle config event malloc1 malloc2 w ht hd).2.2

theorem C15_buffers_released_after_data_event_witness :
    frag1.event_id = esp_mqtt_event_id_t.MQTT_EVENT_DATA
    ∧ (mqtt_event_handler cfg0 frag1 true true w0).topic = none
    ∧ (mqtt_event_handler cfg0 frag1 true true w0).data_text = none
    ∧ (mqtt_event_handler cfg0 frag1 true true w0).heap_blocks = w0.heap_blocks
    ∧ (deliver cfg0 [(frag1, true, true), (frag2, true, false), (frag_whole, true, true)]
        w0).heap_blocks = w0.heap_blocks :=
  ⟨rfl,
    (C15_buffers_released_after_data_event cfg0 frag1 true true w0 rfl).1,
    (C15_buffers_released_after_data_event cfg0 frag1 true true w0 rfl).2.1,
    (C15_buffers_released_after_data_event cfg0 frag1 true true w0 rfl).2.2.1 rfl rfl,
    ((C15_buffers_released_after_data_event cfg0 frag1 true true w0 rfl).2.2.2
      [(frag1, true, true), (frag2, true, false), (frag_whole, true, true)] rfl rfl).2.2⟩

/-! ## C16: end of the worker -/

theorem homie_task_run_terminal (steps : List (homie_config_t × Env)) :
    ∀ w : World, homie_task_run steps (TaskState.Terminal, w) = (TaskState.Terminal, w) := by
  induction steps with
  | nil => intro w; rfl
  | cons c cs ih =>
    intro w
    unfold homie_task_run at ih ⊢
    rw [List.foldl_cons]
    exact ih w

theorem steady_step_exits (config : homie_config_t) (env : Env) (w : World)
    (hloop : config.loop = false) :
    homie_task_step config env (TaskState.Steady, w) = (TaskState.Terminal, w) := by
  unfold homie_task_step
  simp only [hloop, Bool.false_eq_true, if_false]

/-- C16: a step taken at the head of the loop reads `config->loop` once,
before anything else: when it is false the worker ends there, the world
unchanged (no wait, no publication), and stays ended; when it is true
exactly one loop body runs (`homie_connected` or `publish_stats`) and the
worker is back at the head of the loop, where the flag is read again.  With
the flag false from the start and the connection established, the worker
runs `homie_connected` once and ends: whatever the number of further steps,
the world is the one that single announcement left. -/
theorem C16_loop_flag_read_at_head_of_each_iteration (config : homie_config_t)
    (env env1 : Env) (rest : List Env) (w : World) :
    (config.loop = false →
      homie_task_step config env (TaskState.Steady, w) = (TaskState.Terminal, w))
    ∧ (config.loop = true →
      (homie_task_step config env (TaskState.Steady, w)).1 = TaskState.Steady
      ∧ ((homie_task_step config env (TaskState.Steady, w)).2 = homie_connected config env w
        ∨ (homie_task_step config env (TaskState.Steady, w)).2 = publish_stats config env w))
    ∧ homie_task_run (rest.map (fun e => (config, e))) (TaskState.Terminal, w)
        = (TaskState.Terminal, w)
    ∧ (config.loop = false →
      w.homie_event_group &&& HOMIE_MQTT_CONNECTED_BIT = HOMIE_MQTT_CONNECTED_BIT →
      homie_task_run ((config, env) :: (config, env1) :: rest.map (fun e => (config, e)))
          (TaskState.AwaitingConnection, w)
        = (TaskState.Terminal, homie_connected config env w)) := by
  refine ⟨steady_step_exits config env w, ?_, homie_task_run_terminal _ w, ?_⟩
  · intro hloop
    unfold homie_task_step
    simp only [hloop, if_true]
    split_ifs
    · exact ⟨rfl, Or.inl rfl⟩
    · exact ⟨rfl, Or.inr rfl⟩
  · intro hloop hconn
    have h1 : homie_task_step config env (TaskState.AwaitingConnection, w)
        = (TaskState.Steady, homie_connected config env w) := by
      unfold homie_task_step
      simp only [xEventGroupWaitBits, hconn, ne_eq, not_true_eq_false, if_false]
    have h2 := steady_step_exits config env1 (homie_connected config env w) hloop
    have h3 := homie_task_run_terminal (rest.map (fun e => (config, e)))
      (homie_connected config env w)
    unfold homie_task_run at h3 ⊢
    rw [List.foldl_cons, List.foldl_cons, h1, h2]
    exact h3

theorem C16_loop_flag_read_at_head_of_each_iteration_witness :
    (homie_task_run [({ cfg0 with loop := false }, env0), ({ cfg0 with loop := false }, env0),
          ({ cfg0 with loop := false }, env0)]
        (TaskState.AwaitingConnection, w_steady)).1 = TaskState.Terminal
    ∧ ((homie_task_run [({ cfg0 with loop := false }, env0), ({ cfg0 with loop := false }, env0),
          ({ cfg0 with loop := false }, env0)]
        (TaskState.AwaitingConnection, w_steady)).2.trace.filter
        (fun e => e == Effect.publish "homie/lamp/$state".toList "ready".toList 1 1)).length
        = 1 := by
  have h := (C16_loop_flag_read_at_head_of_each_iteration { cfg0 with loop := false } env0 env0
    [env0] w_steady).2.2.2 rfl (by decide)
  have h2 : [env0].map (fun e => (({ cfg0 with loop := false } : homie_config_t), e))
      = [({ cfg0 with loop := false }, env0)] := rfl
  rw [h2] at h
  rw [h]
  exact ⟨rfl, by decide⟩

/-! ## C17: a message delivered in one fragment -/

/-- C17: a data event that carries a whole message (offset 0, `data_len`
equal to `total_data_len`, at least one payload byte, none of them NUL),
whose topic is `base_topic + "/" + s`, handled with both allocations
succeeding and a message handler configured, invokes the handler exactly
once, with `(s, payload)`; on return both buffers are null and the two
blocks allocated have been freed.  Topic and payload need not be
NUL-terminated in the event (`rest1`, `rest2` are the bytes that follow
them). -/
theorem C17_single_fragment_dispatched (config : homie_config_t)
    (s d rest1 rest2 : List Char) (w : World)
    (hlen : strlen config.base_topic < HOMIE_MAX_BASE_TOPIC_LEN)
    (hs : ∀ c ∈ s, c ≠ NUL) (hd : ∀ c ∈ d, c ≠ NUL) (hne : d ≠ [])
    (hh : config.msg_handler = true) :
    mqtt_event_handler config
        { event_id := esp_mqtt_event_id_t.MQTT_EVENT_DATA,
          topic := (cstr config.base_topic ++ '/' :: s) ++ rest1,
          topic_len := (cstr config.base_topic ++ '/' :: s).length,
          data := d ++ rest2,
          data_len := d.length,
          total_data_len := d.length,
          current_data_offset := 0 } true true w
      = { w with topic := none, data_text := none,
                 trace := w.trace
                   ++ [Effect.handle_command (cstr config.base_topic ++ '/' :: s) d,
                       Effect.msg_handler s d] } := by
  have htopic : ∀ c ∈ cstr config.base_topic ++ '/' :: s, c ≠ NUL := by
    intro c hc
    rcases List.mem_append.1 hc with h1 | h1
    · exact cstr_nul_free _ c h1
    · rcases List.mem_cons.1 h1 with h2 | h2
      · rw [h2]; decide
      · exact hs c h2
  have hpos : d.length > 0 := List.length_pos.2 hne
  have hhead : d.headD NUL ≠ NUL := by
    cases d with
    | nil => exact absurd rfl hne
    | cons x xs => exact hd x (List.mem_cons_self _ _)
  unfold mqtt_event_handler
  show mqtt_event_free (mqtt_event_data config _ true true w) = _
  unfold mqtt_event_data
  simp only [if_true, strlcpy_exact htopic, strlcat_nil_exact hd, hpos, Nat.zero_add,
    ge_iff_le, le_refl, Bool.false_eq_true, if_false]
  rw [handle_command_in_namespace config s d _ hlen hhead hh]
  unfold mqtt_event_free
  simp [free]

theorem C17_single_fragment_dispatched_witness :
    mqtt_event_handler cfg0
        { event_id := esp_mqtt_event_id_t.MQTT_EVENT_DATA,
          topic := "homie/lamp/light/on/set".toList ++ "true".toList,
          topic_len := 23,
          data := "true".toList ++ [],
          data_len := 4,
          total_data_len := 4,
          current_data_offset := 0 } true true w0
      = { w0 with trace :=
            [Effect.handle_command "homie/lamp/light/on/set".toList "true".toList,
             Effect.msg_handler "light/on/set".toList "true".toList] } :=
  C17_single_fragment_dispatched cfg0 "light/on/set".toList "true".toList "true".toList [] w0
    (by decide) (by decide) (by decide) (by decide) rfl

/-! ## C18: failed signal-strength query -/

/-- C18: when `esp_wifi_sta_get_ap_info` fails, `get_wifi_rssi` returns 0 and
`publish_stats` publishes "100" under `$stats/signal`
(`clamp((0 + 100) * 2, 0, 100) = 100`), exactly what it publishes for the
strongest reading an `int8_t` can hold, 127. -/
theorem C18_failed_query_publishes_full_signal (config : homie_config_t) (env : Env)
    (w : World) :
    get_wifi_rssi { env with ap_info := none } = 0
    ∧ clamp ((0 + 100) * 2) 0 100 = 100
    ∧ (publish_stats config { env with ap_info := none } w).trace
      = w.trace ++
        [Effect.publish (homie_mktopic config "$stats/signal".toList) "100".toList
           QOS_1 RETAINED,
         Effect.publish (homie_mktopic config "$stats/freeheap".toList)
           (snprintf 16 (fmt_d (to_int env.free_heap_size))) QOS_1 RETAINED,
         Effect.publish (homie_mktopic config "$stats/uptime".toList)
           (snprintf 16 (fmt_d (to_int (Int.tdiv env.timer_time 1000000)))) QOS_1 RETAINED]
    ∧ publish_stats config { env with ap_info := none } w
      = publish_stats config { env with ap_info := some 127 } w := by
  have h0 : get_wifi_rssi { env with ap_info := none } = 0 := rfl
  have h127 : get_wifi_rssi { env with ap_info := some 127 } = 127 := rfl
  have hv : snprintf 16 (fmt_d (clamp ((0 + 100) * 2) 0 100)) = "100".toList := by decide
  have hv127 : snprintf 16 (fmt_d (clamp ((127 + 100) * 2) 0 100)) = "100".toList := by decide
  refine ⟨h0, by decide, ?_, ?_⟩
  · rw [publish_stats_eq, h0, hv]
  · rw [publish_stats_eq, publish_stats_eq, h0, h127, hv, hv127]

/-! ## C19: text of the hardware address -/

/-- C19 (the code departs from the claim): for the hardware address
00:1A:2B:3C:4D:0E, six bytes, `get_mac` writes `0:1A:2B:3C:4D:E`, 15
characters: the bytes below 16 are written with one digit, not two. -/
theorem C19_mac_groups_not_padded :
    (∀ i : Fin 6, env_mac.mac i < 256)
    ∧ get_mac env_mac = "0:1A:2B:3C:4D:E".toList
    ∧ (get_mac env_mac).length = 15
    ∧ "00:00:00:00:00:00".toList.length = 17 := by
  decide

end Homie
